import Mathlib

/-!
Shallow embedding of the simulation core of `src/main.js` (top-down arena
survival game).  Machine numbers are modelled as exact rationals (`ℚ`);
the player-movement normalisation, which needs square roots, is modelled
over `ℝ`.  Distance comparisons `distanceTo(a,b) < r` are embedded as the
equivalent squared comparison `distSq a b < r^2` (valid since `r > 0`).
-/

/-- Health/XP fields of the `Player` class (main.js, `Player` constructor). -/
structure PlayerStats where
  currentHealth : ℚ
  maxHealth : ℚ
  healthRegen : ℚ
  level : ℕ
  currentXp : ℚ
  xpToNextLevel : ℚ
  xpScaling : ℚ
deriving Repr, DecidableEq

/-- Initial player state (`maxHealth = 100`, `healthRegen = 0.5`, `level = 1`,
`xpToNextLevel = 20`, `xpScaling = 1.5`). -/
def initPlayer : PlayerStats :=
  { currentHealth := 100, maxHealth := 100, healthRegen := 0.5
  , level := 1, currentXp := 0, xpToNextLevel := 20, xpScaling := 1.5 }

/-- `Player.takeDamage(amt)`: `currentHealth -= amt; return currentHealth <= 0`.
No clamping of the resulting health. -/
def takeDamage (p : PlayerStats) (amt : ℚ) : PlayerStats × Bool :=
  let h := p.currentHealth - amt
  ({ p with currentHealth := h }, decide (h ≤ 0))

/-- `Player.handleRegen(dt)`: regenerate only while below max, clamped at max. -/
def handleRegen (p : PlayerStats) (dt : ℚ) : PlayerStats :=
  if p.currentHealth < p.maxHealth then
    { p with currentHealth := min (p.currentHealth + p.healthRegen * dt) p.maxHealth }
  else p

/-- `Player.heal(amt)`: `currentHealth = min(currentHealth + amt, maxHealth)`. -/
def heal (p : PlayerStats) (amt : ℚ) : PlayerStats :=
  { p with currentHealth := min (p.currentHealth + amt) p.maxHealth }

/-- `Player.gainXp(amt)`: add XP; on reaching the threshold (a single `if`,
not a loop) carry the overflow, increment the level, and set the new
threshold to `Math.floor(xpToNextLevel * xpScaling)`. -/
def gainXp (p : PlayerStats) (amt : ℚ) : PlayerStats :=
  let xp := p.currentXp + amt
  if p.xpToNextLevel ≤ xp then
    { p with currentXp := xp - p.xpToNextLevel
           , level := p.level + 1
           , xpToNextLevel := (⌊p.xpToNextLevel * p.xpScaling⌋ : ℤ) }
  else
    { p with currentXp := xp }

/-- One health-affecting event applied to the player in some frame. -/
inductive HealthEvent where
  | damage (amt : ℚ)
  | regen (dt : ℚ)
  | healBy (amt : ℚ)
deriving Repr, DecidableEq

/-- Apply a single health event, per the corresponding `Player` method. -/
def applyEvent (p : PlayerStats) : HealthEvent → PlayerStats
  | .damage amt => (takeDamage p amt).1
  | .regen dt => handleRegen p dt
  | .healBy amt => heal p amt

/-- Apply a sequence of health events in order. -/
def applyEvents (p : PlayerStats) : List HealthEvent → PlayerStats
  | [] => p
  | e :: es => applyEvents (applyEvent p e) es

/-- Damage amounts are nonnegative in the game (enemy/boss contact damage
constants are all positive); regen/heal are clamped so need no side
condition. -/
def eventOk : HealthEvent → Bool
  | .damage amt => decide (0 ≤ amt)
  | _ => true

/-- The two weapon kinds (`Weapon` constructor, main.js). -/
inductive WeaponType where
  | pistol
  | shotgun
deriving Repr, DecidableEq

/-- Stats of the `Weapon` class touched by its constructor and `upgrade`.
The `name`, `color` and `spreadAngle` fields (visual/fan-geometry only,
never read by `upgrade`) are omitted. -/
structure Weapon where
  type : WeaponType
  level : ℕ
  damage : ℚ
  fireRate : ℚ
  range : ℚ
  projectileCount : ℕ
deriving Repr, DecidableEq

/-- `new Weapon(type)`: pistol `damage 1, fireRate 0.5, range 15, 1 shot`;
shotgun `damage 1.5, fireRate 1.2, range 8, 3 shots`. -/
def mkWeapon : WeaponType → Weapon
  | .pistol => { type := .pistol, level := 1, damage := 1, fireRate := 0.5
               , range := 15, projectileCount := 1 }
  | .shotgun => { type := .shotgun, level := 1, damage := 1.5, fireRate := 1.2
                , range := 8, projectileCount := 3 }

/-- `Weapon.upgrade()`: `level++`; pistol: `fireRate *= 0.85; damage *= 1.1`;
shotgun: even new level adds a projectile, odd new level multiplies damage
by 1.2. -/
def weaponUpgrade (w : Weapon) : Weapon :=
  let lv := w.level + 1
  match w.type with
  | .pistol => { w with level := lv, fireRate := w.fireRate * 0.85, damage := w.damage * 1.1 }
  | .shotgun =>
      if lv % 2 = 0 then { w with level := lv, projectileCount := w.projectileCount + 1 }
      else { w with level := lv, damage := w.damage * 1.2 }

/-- `WaveManager` state: elapsed game time and the two derived multipliers. -/
structure WaveState where
  gameTime : ℚ
  healthMult : ℚ
  spawnMult : ℚ
deriving Repr, DecidableEq

/-- `new WaveManager()`: `gameTime = 0`, both multipliers 1. -/
def initWave : WaveState := { gameTime := 0, healthMult := 1, spawnMult := 1 }

/-- `WaveManager.update(dt)`: accumulate time, then
`healthMult = 1 + floor(t/60)*0.5` and
`spawnMult = max(0.3, 1 - floor(t/30)*0.1)`. -/
def waveUpdate (w : WaveState) (dt : ℚ) : WaveState :=
  let t := w.gameTime + dt
  { gameTime := t
  , healthMult := 1 + ((⌊t / 60⌋ : ℤ) : ℚ) * 0.5
  , spawnMult := max 0.3 (1 - ((⌊t / 30⌋ : ℤ) : ℚ) * 0.1) }

/-- Spec-side formula for the health multiplier (`1 + floor(t/60)*0.5`). -/
def specHealthMult (t : ℚ) : ℚ := 1 + ((⌊t / 60⌋ : ℤ) : ℚ) * 0.5

/-- Spec-side formula for the spawn multiplier
(`max(0.3, 1 - floor(t/30)*0.1)`). -/
def specSpawnMult (t : ℚ) : ℚ := max 0.3 (1 - ((⌊t / 30⌋ : ℤ) : ℚ) * 0.1)

/-- Fold `WaveManager.update` over a run's frame deltas. -/
def runWave (w : WaveState) : List ℚ → WaveState
  | [] => w
  | d :: ds => runWave (waveUpdate w d) ds

/-- Fields of the `Enemy` class used by the collision, skill, and contact
passes: 3D position (`y` is `scale/2` for live enemies), health, the
`isDestroyed` flag set by `destroy()`, and the contact damage. -/
structure Enemy where
  posX : ℚ
  posY : ℚ
  posZ : ℚ
  health : ℚ
  isDestroyed : Bool
  contactDamage : ℚ
deriving Repr, DecidableEq

/-- `Enemy.takeDamage(amt)`: `health -= amt; return health <= 0`
(the white-flash side effect is visual only). -/
def enemyTakeDamage (e : Enemy) (amt : ℚ) : Enemy × Bool :=
  let e' := { e with health := e.health - amt }
  (e', decide (e'.health ≤ 0))

/-- Squared Euclidean distance between two 3D points
(`Vector3.distanceTo` squared). -/
def distSq (x1 y1 z1 x2 y2 z2 : ℚ) : ℚ :=
  (x1 - x2) ^ 2 + (y1 - y2) ^ 2 + (z1 - z2) ^ 2

/-- `a.distanceTo(b) < r` embedded as the equivalent squared comparison
(`r > 0` throughout the code). -/
def distLt (x1 y1 z1 x2 y2 z2 r : ℚ) : Bool :=
  decide (distSq x1 y1 z1 x2 y2 z2 < r ^ 2)

/-- State of the `ThunderStrike` skill relevant to its cooldown logic. -/
structure ThunderState where
  cooldown : ℚ
  timer : ℚ
  damage : ℚ
deriving Repr, DecidableEq

/-- Cooldown/firing logic of `ThunderStrike.update(dt, ..., enemies, ...)`:
`timer += dt`; when `timer >= cooldown && enemies.length > 0` the timer is
set to 0 *before* filtering out destroyed enemies; if the filter is empty
the method returns with no damage (but the timer stays reset).  The
returned `Bool` records whether damage was applied to some (randomly
chosen) valid enemy; bolt visuals are out of scope. -/
def thunderUpdate (s : ThunderState) (dt : ℚ) (enemies : List Enemy) :
    ThunderState × Bool :=
  let t := s.timer + dt
  if s.cooldown ≤ t ∧ 0 < enemies.length then
    let valid := enemies.filter (fun e => !e.isDestroyed)
    if valid.isEmpty then ({ s with timer := 0 }, false)
    else ({ s with timer := 0 }, true)
  else
    ({ s with timer := t }, false)

/-- Fields of the `Projectile` class used by the collision passes.
`speed`, `lifetime`, `age`, `direction` and `color` drive motion/visuals
only and are untouched by the collision code. -/
structure Projectile where
  posX : ℚ
  posY : ℚ
  posZ : ℚ
  damage : ℚ
  isDestroyed : Bool
deriving Repr, DecidableEq

/-- `Weapon.fire` constructs each projectile as
`new Projectile(scene, this.damage, this.color)` and `start` places it at
the player position with `y = 1`.  There is no pierce field. -/
def fireProjectile (w : Weapon) (px pz : ℚ) : Projectile :=
  { posX := px, posY := 1, posZ := pz, damage := w.damage, isDestroyed := false }

/-- Hit test of `checkProjectileEnemyCollisions`:
`p.getPosition().distanceTo(e.getPosition()) < projectileHitDist (1.0)`. -/
def projectileHits (p : Projectile) (e : Enemy) : Bool :=
  distLt p.posX p.posY p.posZ e.posX e.posY e.posZ 1

/-- Inner enemy loop of `checkProjectileEnemyCollisions` for one projectile,
over the enemies in iteration order (the JS loop walks the array from the
last index down, so callers pass the reversed array).  The first
non-destroyed enemy within range takes the projectile's damage; if it dies
it is removed (`removeEnemy` splices it out), otherwise it stays damaged;
either way the loop breaks, leaving every remaining enemy untouched, and
reports the hit (which destroys the projectile in the outer loop). -/
def resolveAgainst (p : Projectile) : List Enemy → List Enemy × Bool
  | [] => ([], false)
  | e :: es =>
      if e.isDestroyed then
        let r := resolveAgainst p es
        (e :: r.1, r.2)
      else if projectileHits p e then
        let hit := enemyTakeDamage e p.damage
        if hit.2 then (es, true) else (hit.1 :: es, true)
      else
        let r := resolveAgainst p es
        (e :: r.1, r.2)

/-- One projectile resolved against the enemies array (in array order):
wraps `resolveAgainst` in the downward iteration of the JS loop. -/
def resolveProjectile (p : Projectile) (enemies : List Enemy) :
    List Enemy × Bool :=
  let r := resolveAgainst p enemies.reverse
  (r.1.reverse, r.2)

/-- Outer projectile loop of `checkProjectileEnemyCollisions`, over the
projectiles in iteration order (downward, so callers pass the reversed
array).  Destroyed projectiles are skipped (they stay in the array until
the next `updateProjectiles` sweep); a projectile that hits is destroyed
and spliced out. -/
def projectilePassRev : List Projectile → List Enemy → List Projectile × List Enemy
  | [], es => ([], es)
  | p :: ps, es =>
      if p.isDestroyed then
        let r := projectilePassRev ps es
        (p :: r.1, r.2)
      else
        let res := resolveAgainst p es.reverse
        let es' := res.1.reverse
        if res.2 then
          projectilePassRev ps es'
        else
          let r := projectilePassRev ps es'
          (p :: r.1, r.2)

/-- `GameManager.checkProjectileEnemyCollisions()` on the projectile and
enemy arrays (both iterated downward), returning the surviving arrays in
array order. -/
def checkProjectileEnemyCollisions (ps : List Projectile) (es : List Enemy) :
    List Projectile × List Enemy :=
  let r := projectilePassRev ps.reverse es
  (r.1.reverse, r.2)

/-- `collisionDist` (player↔enemy contact radius), main.js 1539. -/
def collisionDist : ℚ := 1.2

/-- `contactDmgInterval`, main.js 1540. -/
def contactDmgInterval : ℚ := 0.5

/-- `GameManager.checkPlayerEnemyCollisions(dt)`: always accumulate
`contactDmgTimer += dt`; sum the contact damage of every enemy within
`collisionDist`; if any is touching and the timer has reached
`contactDmgInterval`, reset the timer to 0 and apply the summed damage
(returned as `some total`). -/
def checkPlayerEnemyContact (timer dt px py pz : ℚ) (enemies : List Enemy) :
    ℚ × Option ℚ :=
  let t := timer + dt
  let touching := enemies.filter
    (fun e => distLt px py pz e.posX e.posY e.posZ collisionDist)
  let totalDmg := (touching.map (fun e => e.contactDamage)).sum
  if ¬ touching.isEmpty ∧ contactDmgInterval ≤ t then (0, some totalDmg)
  else (t, none)

/-- Player↔boss half of `GameManager.checkBossCollisions()`: only when the
player is within the boss's 3.0 radius is `contactDmgTimer` incremented
(by the same frame delta); on reaching `contactDmgInterval` it resets to 0
and the boss's contact damage is applied. -/
def checkPlayerBossContact (timer dt px py pz bossX bossY bossZ bossDmg : ℚ) :
    ℚ × Option ℚ :=
  if distLt px py pz bossX bossY bossZ 3 then
    let t := timer + dt
    if contactDmgInterval ≤ t then (0, some bossDmg) else (t, none)
  else (timer, none)

/-- The two contact-damage passes of one frame in code order
(`checkBossCollisions` at main.js 1728 runs before
`checkPlayerEnemyCollisions` at main.js 1740), threading the single shared
`contactDmgTimer` through both; both passes see the same frame delta. -/
def contactFrame (timer dt px py pz bossX bossY bossZ bossDmg : ℚ)
    (enemies : List Enemy) : ℚ × Option ℚ × Option ℚ :=
  let b := checkPlayerBossContact timer dt px py pz bossX bossY bossZ bossDmg
  let e := checkPlayerEnemyContact b.1 dt px py pz enemies
  (e.1, b.2, e.2)

/-- Labels for the simulation steps of `GameManager.update()` (cosmetic
steps — particles, floating text, camera, UI — omitted). -/
inductive Step where
  | motionPlayer
  | motionEnemies
  | motionSkills
  | motionProjectiles
  | motionGems
  | motionBoss
  | passPlayerBoss
  | passProjectileBoss
  | passPlayerEnemy
  | passProjectileEnemy
  | passGem
deriving Repr, DecidableEq

/-- `GameManager.checkBossCollisions()` resolves player↔boss contact first,
then projectile↔boss. -/
def checkBossCollisionsTrace : List Step :=
  [Step.passPlayerBoss, Step.passProjectileBoss]

/-- The sequence of simulation steps of one `GameManager.update()` call
(main.js 1686-1746): player, spawner/enemies, skills, projectiles and gems
update; then, when a live boss exists, the boss moves and
`checkBossCollisions` runs; then the player↔enemy, projectile↔enemy and
gem passes. -/
def frameTrace (bossActive : Bool) : List Step :=
  [Step.motionPlayer, Step.motionEnemies, Step.motionSkills,
   Step.motionProjectiles, Step.motionGems] ++
  (if bossActive then Step.motionBoss :: checkBossCollisionsTrace else []) ++
  [Step.passPlayerEnemy, Step.passProjectileEnemy, Step.passGem]

/-- Whether a step is an entity-motion update (as opposed to a collision /
damage-resolution pass). -/
def isMotion : Step → Bool
  | .motionPlayer | .motionEnemies | .motionSkills
  | .motionProjectiles | .motionGems | .motionBoss => true
  | _ => false

/-- The collision-resolver passes of a frame, in execution order. -/
def resolverOrder (bossActive : Bool) : List Step :=
  (frameTrace bossActive).filter (fun s => !isMotion s)

/-- Modelled from the spec: the pass order §4.2 claims — (1) player↔enemy,
(2) player↔boss, (3) projectile↔enemy, (4) projectile↔boss, (5) gems.
Used only to compare against the order the code actually executes. -/
def claimedResolverOrder : List Step :=
  [Step.passPlayerEnemy, Step.passPlayerBoss, Step.passProjectileEnemy,
   Step.passProjectileBoss, Step.passGem]

/-- The frame delta handed to each subsystem `update` call inside
`GameManager.update()`, in call order: wave, player, spawner, skills,
projectiles, gems all receive the raw `dt`; only the boss (when a live
boss exists) receives `dt * slowMoScale` (main.js 1726). -/
def updateDeltas (dt slowMoScale : ℚ) (bossActive : Bool) : List ℚ :=
  [dt, dt, dt, dt, dt, dt] ++ (if bossActive then [dt * slowMoScale] else [])

/-- Victory-sequence fields of `GameManager` together with the boss's
health and XP value and the player stats they feed. -/
structure VictoryState where
  isVictory : Bool
  slowMoScale : ℚ
  slowMoTimer : ℚ
  score : ℚ
  bossHealth : ℚ
  bossXpValue : ℚ
  bossDestroyed : Bool
  player : PlayerStats
deriving Repr, DecidableEq

/-- `GameManager.triggerVictory()`: set `isVictory`, `slowMoScale = 0.2`,
`slowMoTimer = 3.0`, grant the boss's XP to the player, add 1000 score,
and destroy the boss (particle/sound/UI effects out of scope). -/
def triggerVictory (s : VictoryState) : VictoryState :=
  { s with isVictory := true, slowMoScale := 0.2, slowMoTimer := 3
         , player := gainXp s.player s.bossXpValue
         , score := s.score + 1000
         , bossDestroyed := true }

/-- Projectile↔boss hit handling inside `checkBossCollisions`:
`boss.takeDamage(dmg)`; when the boss dies (`health <= 0`),
`triggerVictory()` runs (the projectile's own destruction is as in the
enemy pass). -/
def projectileHitsBoss (s : VictoryState) (dmg : ℚ) : VictoryState :=
  let s' := { s with bossHealth := s.bossHealth - dmg }
  if s'.bossHealth ≤ 0 then triggerVictory s' else s'

/-- `checkBossCollisions` guard: the whole pass is skipped once the boss is
destroyed (`if (!this.boss || this.boss.isDestroyed) return`). -/
def checkBossProjectile (s : VictoryState) (dmg : ℚ) : VictoryState :=
  if s.bossDestroyed then s else projectileHitsBoss s dmg

/-- Slow-motion countdown in `GameManager.update()` (main.js 1732-1738):
while `slowMoTimer > 0` it is decremented by the *unscaled*
`time.deltaTime`; on reaching 0 the scale resets to 1 and
`showVictoryScreen()` runs (returned `Bool`). -/
def slowMoStep (s : VictoryState) (dt : ℚ) : VictoryState × Bool :=
  if 0 < s.slowMoTimer then
    let t := s.slowMoTimer - dt
    if t ≤ 0 then ({ s with slowMoTimer := t, slowMoScale := 1 }, true)
    else ({ s with slowMoTimer := t }, false)
  else (s, false)

/-- Run the slow-motion countdown over successive frames' unscaled deltas
until the victory screen is shown (`showVictoryScreen` pauses the game,
so the run stops there). -/
def runSlowMo (s : VictoryState) : List ℚ → VictoryState × Bool
  | [] => (s, false)
  | d :: ds =>
      let r := slowMoStep s d
      if r.2 then (r.1, true) else runSlowMo r.1 ds

/-- Length of a planar input vector (`Vector3.length()` with `y = 0`). -/
noncomputable def vecLength (x z : ℝ) : ℝ := Real.sqrt (x ^ 2 + z ^ 2)

/-- `Player.handleMovement(dt)`: read the raw input vector, normalize it
when its length is positive, then displace the player by
`inputVector * moveSpeed * dt` on each ground-plane axis.  Returns the
frame displacement. -/
noncomputable def handleMovement (mx mz speed dt : ℝ) : ℝ × ℝ :=
  let len := vecLength mx mz
  let v : ℝ × ℝ := if 0 < len then (mx / len, mz / len) else (mx, mz)
  (v.1 * speed * dt, v.2 * speed * dt)

/-- `Player.moveSpeed` (main.js 1160). -/
def moveSpeed : ℚ := 8

/-- Helper: `WaveManager.update` keeps the derived multipliers equal to the
spec formulas of the accumulated time, and time accumulates additively. -/
theorem runWave_consistent (ds : List ℚ) : ∀ w : WaveState,
    w.healthMult = specHealthMult w.gameTime →
    w.spawnMult = specSpawnMult w.gameTime →
    (runWave w ds).gameTime = w.gameTime + ds.sum ∧
    (runWave w ds).healthMult = specHealthMult ((runWave w ds).gameTime) ∧
    (runWave w ds).spawnMult = specSpawnMult ((runWave w ds).gameTime) := by
  induction ds with
  | nil =>
      intro w h1 h2
      refine ⟨by simp [runWave], ?_, ?_⟩ <;> simpa [runWave]
  | cons d ds ih =>
      intro w h1 h2
      have h := ih (waveUpdate w d) (by simp [waveUpdate, specHealthMult])
        (by simp [waveUpdate, specSpawnMult])
      refine ⟨?_, h.2.1, h.2.2⟩
      show (runWave (waveUpdate w d) ds).gameTime = _
      rw [h.1]
      simp [waveUpdate]
      ring

/-- Claim C7: for every run (every sequence of frame deltas), the wave
state's derived health multiplier equals `1 + floor(t/60)*0.5` and its
derived spawn multiplier equals `max(0.3, 1 - floor(t/30)*0.1)`, where `t`
is the elapsed survival time. -/
theorem C7_wave_multipliers (ds : List ℚ) :
    (runWave initWave ds).gameTime = ds.sum ∧
    (runWave initWave ds).healthMult = specHealthMult ds.sum ∧
    (runWave initWave ds).spawnMult = specSpawnMult ds.sum := by
  have h := runWave_consistent ds initWave
    (by norm_num [initWave, specHealthMult])
    (by norm_num [initWave, specSpawnMult])
  have ht : (runWave initWave ds).gameTime = ds.sum := by
    rw [h.1]; norm_num [initWave]
  exact ⟨ht, by rw [h.2.1, ht], by rw [h.2.2, ht]⟩

/-- Claim C8: upgrading the pistol multiplies its fire interval by 0.85 and
its damage by 1.1; upgrading the shotgun adds one projectile when the
resulting level is even and multiplies its damage by 1.2 when the
resulting level is odd. -/
theorem C8_weapon_upgrade_rule (w : Weapon) :
    (w.type = WeaponType.pistol →
       (weaponUpgrade w).fireRate = w.fireRate * 0.85 ∧
       (weaponUpgrade w).damage = w.damage * 1.1 ∧
       (weaponUpgrade w).projectileCount = w.projectileCount) ∧
    (w.type = WeaponType.shotgun →
       (weaponUpgrade w).level = w.level + 1 ∧
       ((w.level + 1) % 2 = 0 →
          (weaponUpgrade w).projectileCount = w.projectileCount + 1 ∧
          (weaponUpgrade w).damage = w.damage) ∧
       ((w.level + 1) % 2 = 1 →
          (weaponUpgrade w).damage = w.damage * 1.2 ∧
          (weaponUpgrade w).projectileCount = w.projectileCount)) := by
  obtain ⟨ty, lv, dmg, fr, rg, pc⟩ := w
  cases ty with
  | pistol =>
      refine ⟨fun _ => ?_, fun h => nomatch h⟩
      simp [weaponUpgrade]
  | shotgun =>
      constructor
      · intro h
        exact nomatch h
      · intro _
        refine ⟨?_, ?_, ?_⟩
        · by_cases hp : (lv + 1) % 2 = 0 <;> simp [weaponUpgrade, hp]
        · intro hp
          simp only [] at hp
          simp [weaponUpgrade, hp]
        · intro hp
          simp only [] at hp
          have hne : ¬ ((lv + 1) % 2 = 0) := by omega
          simp [weaponUpgrade, hne]

/-- Witness for C8 at the freshly constructed weapons: the pistol's damage
gains the 1.1 factor; the level-1 shotgun's first upgrade (even resulting
level 2) adds a projectile. -/
theorem C8_weapon_upgrade_rule_witness :
    (weaponUpgrade (mkWeapon WeaponType.pistol)).damage
      = (mkWeapon WeaponType.pistol).damage * 1.1 ∧
    (weaponUpgrade (mkWeapon WeaponType.shotgun)).projectileCount
      = (mkWeapon WeaponType.shotgun).projectileCount + 1 := by
  refine ⟨((C8_weapon_upgrade_rule (mkWeapon WeaponType.pistol)).1 rfl).2.1, ?_⟩
  exact (((C8_weapon_upgrade_rule (mkWeapon WeaponType.shotgun)).2 rfl).2.1
    (by norm_num [mkWeapon])).1

/-- Claim C5 as stated is false: gaining 100 XP at level 1 with threshold 20
resolves a single level-up (level 2, carry-over 80, new threshold 30), but
the carried-over XP is not below the new threshold — `gainXp` uses a
single `if`, so it never cascades. -/
theorem C5_counterexample :
    (gainXp initPlayer 100).level = 2 ∧
    (gainXp initPlayer 100).currentXp = 80 ∧
    (gainXp initPlayer 100).xpToNextLevel = 30 ∧
    ¬ ((gainXp initPlayer 100).currentXp < (gainXp initPlayer 100).xpToNextLevel) := by
  norm_num [gainXp, initPlayer]

/-- Claim C5, amended: a call of `gainXp` that makes accumulated XP reach the
threshold increments the level once, carries the overflow over
(`xp -= threshold`) and sets the threshold to `floor(threshold × 1.5)`; in
particular with `xpToNextLevel = 20`, gaining 25 XP at level 1 yields
level 2, `currentXp = 5`, `xpToNextLevel = 30`.  The carried-over XP is
*not* guaranteed to be below the new threshold (see the counterexample). -/
theorem C5_xp_rollover (p : PlayerStats) (amt : ℚ)
    (h : p.xpToNextLevel ≤ p.currentXp + amt) :
    (gainXp p amt).level = p.level + 1 ∧
    (gainXp p amt).currentXp = p.currentXp + amt - p.xpToNextLevel ∧
    (gainXp p amt).xpToNextLevel = ((⌊p.xpToNextLevel * p.xpScaling⌋ : ℤ) : ℚ) ∧
    (gainXp initPlayer 25).level = 2 ∧
    (gainXp initPlayer 25).currentXp = 5 ∧
    (gainXp initPlayer 25).xpToNextLevel = 30 := by
  refine ⟨?_, ?_, ?_, ?_, ?_, ?_⟩
  · simp [gainXp, h]
  · simp [gainXp, h]
  · simp [gainXp, h]
  · norm_num [gainXp, initPlayer]
  · norm_num [gainXp, initPlayer]
  · norm_num [gainXp, initPlayer]

/-- Witness for C5 at the spec's own example (threshold 20, gain 25). -/
theorem C5_xp_rollover_witness :
    (gainXp initPlayer 25).level = initPlayer.level + 1 ∧
    (gainXp initPlayer 25).currentXp = initPlayer.currentXp + 25 - initPlayer.xpToNextLevel ∧
    (gainXp initPlayer 25).xpToNextLevel
      = ((⌊initPlayer.xpToNextLevel * initPlayer.xpScaling⌋ : ℤ) : ℚ) ∧
    (gainXp initPlayer 25).level = 2 ∧
    (gainXp initPlayer 25).currentXp = 5 ∧
    (gainXp initPlayer 25).xpToNextLevel = 30 :=
  C5_xp_rollover initPlayer 25 (by norm_num [initPlayer])

/-- Claim C6 as stated is false on one case: with the cooldown expired and
the enemies array non-empty but containing only destroyed enemies, the
timer *is* reset to 0 (it is zeroed before the validity filter runs), so
it does not keep counting. -/
theorem C6_counterexample :
    (thunderUpdate ⟨3, 2.5, 50⟩ 1 [⟨0, 0.5, 0, 3, true, 10⟩]).1.timer = 0 ∧
    (thunderUpdate ⟨3, 2.5, 50⟩ 1 [⟨0, 0.5, 0, 3, true, 10⟩]).2 = false ∧
    (thunderUpdate ⟨3, 2.5, 50⟩ 1 [⟨0, 0.5, 0, 3, true, 10⟩]).1.timer ≠ 2.5 + 1 := by
  norm_num [thunderUpdate]

/-- Claim C6, amended: when ThunderStrike's cooldown has expired, (a) with an
*empty* enemies array no damage is applied and the timer keeps
accumulating, so (b) on the first subsequent tick in which a live enemy is
present the strike fires; but (c) with a non-empty array whose enemies are
all destroyed, no damage is applied *and the timer resets to 0*. -/
theorem C6_thunder_cooldown (s : ThunderState) (dt : ℚ)
    (h : s.cooldown ≤ s.timer + dt) :
    ((thunderUpdate s dt []).1.timer = s.timer + dt ∧
     (thunderUpdate s dt []).2 = false) ∧
    (∀ enemies : List Enemy, 0 < enemies.length →
       (∃ e ∈ enemies, e.isDestroyed = false) →
       (thunderUpdate s dt enemies).2 = true ∧
       (thunderUpdate s dt enemies).1.timer = 0) ∧
    (∀ enemies : List Enemy, 0 < enemies.length →
       (∀ e ∈ enemies, e.isDestroyed = true) →
       (thunderUpdate s dt enemies).2 = false ∧
       (thunderUpdate s dt enemies).1.timer = 0) := by
  refine ⟨by simp [thunderUpdate], ?_, ?_⟩
  · rintro enemies hlen ⟨e, he, hde⟩
    have hmem : e ∈ enemies.filter (fun e => !e.isDestroyed) :=
      List.mem_filter.mpr ⟨he, by simp [hde]⟩
    have hfe : (enemies.filter (fun e => !e.isDestroyed)).isEmpty = false := by
      cases hfil : enemies.filter (fun e => !e.isDestroyed) with
      | nil => rw [hfil] at hmem; cases hmem
      | cons a l => simp
    simp [thunderUpdate, h, hlen, hfe]
  · intro enemies hlen hall
    have hfil : enemies.filter (fun e => !e.isDestroyed) = [] := by
      rw [List.filter_eq_nil_iff]
      intro e he
      simp [hall e he]
    simp [thunderUpdate, h, hlen, hfil]

/-- Witness for C6: a concrete expired-cooldown tick with no enemies keeps
the accumulator at 3.5; the next tick with one live enemy present fires. -/
theorem C6_thunder_cooldown_witness :
    (thunderUpdate ⟨3, 2, 50⟩ 1.5 []).1.timer = 2 + 1.5 ∧
    (thunderUpdate ⟨3, 2, 50⟩ 1.5 [⟨0, 0.5, 0, 3, false, 10⟩]).2 = true := by
  have h := C6_thunder_cooldown ⟨3, 2, 50⟩ 1.5 (by norm_num)
  refine ⟨h.1.1, (h.2.1 [⟨0, 0.5, 0, 3, false, 10⟩] (by simp)
    ⟨⟨0, 0.5, 0, 3, false, 10⟩, List.mem_cons_self _ _, rfl⟩).1⟩

/-- Helper: each health event keeps `currentHealth ≤ maxHealth` (given
nonnegative damage amounts) and leaves `maxHealth` unchanged. -/
theorem applyEvent_le_max (p : PlayerStats) (e : HealthEvent)
    (hok : eventOk e = true) (hp : p.currentHealth ≤ p.maxHealth) :
    (applyEvent p e).currentHealth ≤ (applyEvent p e).maxHealth ∧
    (applyEvent p e).maxHealth = p.maxHealth := by
  cases e with
  | damage amt =>
      simp only [eventOk, decide_eq_true_eq] at hok
      refine ⟨?_, rfl⟩
      show p.currentHealth - amt ≤ p.maxHealth
      linarith
  | regen dt =>
      simp only [applyEvent, handleRegen]
      split
      · exact ⟨min_le_right _ _, rfl⟩
      · exact ⟨hp, rfl⟩
  | healBy amt =>
      exact ⟨min_le_right _ _, rfl⟩

/-- Helper: the health upper bound is preserved by any event sequence. -/
theorem applyEvents_le_max (es : List HealthEvent) : ∀ p : PlayerStats,
    p.currentHealth ≤ p.maxHealth → (∀ e ∈ es, eventOk e = true) →
    (applyEvents p es).currentHealth ≤ (applyEvents p es).maxHealth := by
  induction es with
  | nil => intro p hp _; exact hp
  | cons e es ih =>
      intro p hp hok
      have h1 := applyEvent_le_max p e (hok e (List.mem_cons_self e es)) hp
      exact ih (applyEvent p e) h1.1 (fun e' he' => hok e' (List.mem_cons_of_mem e he'))

/-- Claim C1 as stated is false: `Player.takeDamage` does not clamp, so
lethal damage (150 against 100 health) drives `currentHealth` to −50 in
the very tick whose `true` return value triggers GAME_OVER. -/
theorem C1_counterexample :
    (applyEvents initPlayer [HealthEvent.damage 150]).currentHealth = -50 ∧
    ¬ (0 ≤ (applyEvents initPlayer [HealthEvent.damage 150]).currentHealth) ∧
    (takeDamage initPlayer 150).2 = true := by
  norm_num [applyEvents, applyEvent, takeDamage, initPlayer]

/-- Claim C1, amended: across any sequence of damage / regen / heal events
(with nonnegative damage amounts) `currentHealth ≤ maxHealth` always
holds, but `currentHealth` is not clamped below: lethal damage may drive
it negative, and `takeDamage` reports death (triggering GAME_OVER in the
same tick) exactly when the resulting health is ≤ 0. -/
theorem C1_health_upper_bound (p : PlayerStats)
    (hp : p.currentHealth ≤ p.maxHealth)
    (es : List HealthEvent) (hok : ∀ e ∈ es, eventOk e = true) :
    (applyEvents p es).currentHealth ≤ (applyEvents p es).maxHealth ∧
    ∀ amt : ℚ, ((takeDamage p amt).2 = true ↔
      (takeDamage p amt).1.currentHealth ≤ 0) := by
  refine ⟨applyEvents_le_max es p hp hok, ?_⟩
  intro amt
  simp [takeDamage]

/-- Witness for C1 on a concrete run: 30 contact damage, 2 s of regen, then
an over-large heal stay within the max-health bound. -/
theorem C1_health_upper_bound_witness :
    (applyEvents initPlayer
      [HealthEvent.damage 30, HealthEvent.regen 2, HealthEvent.healBy 200]).currentHealth ≤
    (applyEvents initPlayer
      [HealthEvent.damage 30, HealthEvent.regen 2, HealthEvent.healBy 200]).maxHealth :=
  (C1_health_upper_bound initPlayer (by norm_num [initPlayer])
    [HealthEvent.damage 30, HealthEvent.regen 2, HealthEvent.healBy 200]
    (by intro e he; simp at he; rcases he with rfl | rfl | rfl <;> norm_num [eventOk])).1

/-- Helper: the inner enemy loop of the projectile pass either hits nothing
(returning the list unchanged) or damages exactly the first valid
in-range enemy in iteration order — removing it if it dies — leaves every
other enemy untouched, breaks, and reports the hit. -/
theorem resolveAgainst_spec (p : Projectile) :
    ∀ l : List Enemy,
      resolveAgainst p l = (l, false) ∨
      ∃ l1 e l2, l = l1 ++ e :: l2 ∧ e.isDestroyed = false ∧
        projectileHits p e = true ∧
        resolveAgainst p l =
          (l1 ++ (if (enemyTakeDamage e p.damage).2 then l2
                  else (enemyTakeDamage e p.damage).1 :: l2), true)
  | [] => Or.inl rfl
  | e :: es => by
      by_cases hd : e.isDestroyed = true
      · rcases resolveAgainst_spec p es with h | ⟨l1, e', l2, heq, hne, hhit, hres⟩
        · left
          simp [resolveAgainst, hd, h]
        · right
          refine ⟨e :: l1, e', l2, by simp [heq], hne, hhit, ?_⟩
          simp [resolveAgainst, hd, hres]
      · by_cases hh : projectileHits p e = true
        · right
          refine ⟨[], e, es, by simp, by simpa using hd, hh, ?_⟩
          cases h2 : (enemyTakeDamage e p.damage).2 <;>
            simp [resolveAgainst, hd, hh, h2]
        · rcases resolveAgainst_spec p es with h | ⟨l1, e', l2, heq, hne, hhit, hres⟩
          · left
            simp [resolveAgainst, hd, hh, h]
          · right
            refine ⟨e :: l1, e', l2, by simp [heq], hne, hhit, ?_⟩
            simp [resolveAgainst, hd, hh, hres]

/-- A pistol projectile at the origin, as created by `Weapon.fire`. -/
def cePistolShot : Projectile := fireProjectile (mkWeapon WeaponType.pistol) 0 0

/-- A live enemy 0.5 units from the projectile (inside the 1.0 hit radius). -/
def ceEnemyA : Enemy := ⟨0.5, 1, 0, 3, false, 10⟩

/-- A second live enemy, also inside the hit radius. -/
def ceEnemyB : Enemy := ⟨-0.5, 1, 0, 3, false, 10⟩

/-- Claim C2 as stated is false: a pistol projectile with *two* live enemies
in range damages only one of them (the last in array order, since the
loop walks downward) and is destroyed and removed on that first hit —
`Projectile` has no pierce state at all. -/
theorem C2_counterexample :
    (checkProjectileEnemyCollisions [cePistolShot] [ceEnemyA, ceEnemyB]).1 = [] ∧
    (checkProjectileEnemyCollisions [cePistolShot] [ceEnemyA, ceEnemyB]).2 =
      [ceEnemyA, ⟨-0.5, 1, 0, 2, false, 10⟩] := by
  norm_num [checkProjectileEnemyCollisions, projectilePassRev, resolveAgainst,
    cePistolShot, ceEnemyA, ceEnemyB, fireProjectile, mkWeapon, projectileHits,
    distLt, distSq, enemyTakeDamage]

/-- Claim C2, amended: every projectile — pistol and shotgun alike — is
destroyed on its first enemy hit, and at most one projectile↔enemy pair
is resolved per projectile per frame: the pass either leaves the enemies
unchanged (no hit, projectile kept) or damages exactly one enemy and
removes the projectile. -/
theorem C2_projectile_destroyed_first_hit (p : Projectile) (l : List Enemy)
    (hp : p.isDestroyed = false) :
    (resolveAgainst p l = (l, false) ∨
      ∃ l1 e l2, l = l1 ++ e :: l2 ∧ e.isDestroyed = false ∧
        projectileHits p e = true ∧
        resolveAgainst p l =
          (l1 ++ (if (enemyTakeDamage e p.damage).2 then l2
                  else (enemyTakeDamage e p.damage).1 :: l2), true)) ∧
    checkProjectileEnemyCollisions [p] l =
      ((if (resolveProjectile p l).2 then [] else [p]),
       (resolveProjectile p l).1) := by
  refine ⟨resolveAgainst_spec p l, ?_⟩
  have hchar : ∀ res : List Enemy × Bool, resolveAgainst p l.reverse = res →
      checkProjectileEnemyCollisions [p] l =
        ((if res.2 then [] else [p]), res.1.reverse) := by
    rintro ⟨es2, hit⟩ hres
    cases hit <;>
      simp [checkProjectileEnemyCollisions, projectilePassRev, hp, hres]
  simpa [resolveProjectile] using hchar (resolveAgainst p l.reverse) rfl

/-- Witness for C2 at a concrete pistol shot against one enemy in range. -/
theorem C2_projectile_destroyed_first_hit_witness :
    checkProjectileEnemyCollisions [cePistolShot] [ceEnemyA] =
      ((if (resolveProjectile cePistolShot [ceEnemyA]).2 then [] else [cePistolShot]),
       (resolveProjectile cePistolShot [ceEnemyA]).1) :=
  (C2_projectile_destroyed_first_hit cePistolShot [ceEnemyA] rfl).2

/-- Claim C3 as stated is false: with a live boss, the player↔boss and
projectile↔boss passes run *before* the player↔enemy and projectile↔enemy
passes, not interleaved in the claimed order. -/
theorem C3_counterexample : resolverOrder true ≠ claimedResolverOrder := by decide

/-- Claim C3, amended: the resolver does run after all entity motion updates
(every motion step precedes every collision pass in the frame trace), but
the pass order is player↔boss, projectile↔boss, player↔enemy,
projectile↔enemy, gem collection when a boss is active, and player↔enemy,
projectile↔enemy, gem collection otherwise. -/
theorem C3_resolver_order :
    (∀ b : Bool,
       (frameTrace b).filter (fun s => isMotion s) ++
       (frameTrace b).filter (fun s => !isMotion s) = frameTrace b) ∧
    resolverOrder true =
      [Step.passPlayerBoss, Step.passProjectileBoss, Step.passPlayerEnemy,
       Step.passProjectileEnemy, Step.passGem] ∧
    resolverOrder false =
      [Step.passPlayerEnemy, Step.passProjectileEnemy, Step.passGem] := by
  decide

/-- Helper: once the slow-motion timer is positive, accumulating at least
that much unscaled frame time across subsequent updates shows the victory
screen. -/
theorem runSlowMo_fires (ds : List ℚ) : ∀ s : VictoryState,
    0 < s.slowMoTimer → s.slowMoTimer ≤ ds.sum →
    (runSlowMo s ds).2 = true := by
  induction ds with
  | nil =>
      intro s h0 hsum
      simp only [List.sum_nil] at hsum
      linarith
  | cons d ds ih =>
      intro s h0 hsum
      simp only [List.sum_cons] at hsum
      by_cases hend : s.slowMoTimer - d ≤ 0
      · simp [runSlowMo, slowMoStep, h0, hend]
      · have h1 : 0 < s.slowMoTimer - d := by linarith
        have h2 : s.slowMoTimer - d ≤ ds.sum := by linarith
        simp only [runSlowMo, slowMoStep, if_pos h0, if_neg hend]
        exact ih _ h1 h2

/-- `GameManager` state one projectile hit before the boss dies: 1 health
left, boss XP 500, nothing granted yet. -/
def preKillState : VictoryState :=
  { isVictory := false, slowMoScale := 1, slowMoTimer := 0, score := 0
  , bossHealth := 1, bossXpValue := 500, bossDestroyed := false
  , player := initPlayer }

/-- Claim C4 as stated is false in its slow-motion part: after the killing
hit `slowMoScale` is 0.2, but that scalar multiplies only the boss's own
update delta — every other subsystem update still receives the raw `dt`
(and the boss, now destroyed, is not updated at all), so 0.2× is not
applied to all subsequent `update(dt)` calls. -/
theorem C4_counterexample :
    (checkBossProjectile preKillState 1).slowMoScale = 0.2 ∧
    (checkBossProjectile preKillState 1).bossDestroyed = true ∧
    updateDeltas 1 ((checkBossProjectile preKillState 1).slowMoScale) false
      = [1, 1, 1, 1, 1, 1] ∧
    ¬ (∀ d ∈ updateDeltas 1 ((checkBossProjectile preKillState 1).slowMoScale) false,
         d = 0.2 * 1) := by
  refine ⟨?_, ?_, ?_, ?_⟩
  · norm_num [checkBossProjectile, preKillState, projectileHitsBoss, triggerVictory]
  · norm_num [checkBossProjectile, preKillState, projectileHitsBoss, triggerVictory]
  · simp [updateDeltas]
  · intro hall
    have h1 := hall 1 (by simp [updateDeltas])
    norm_num at h1

/-- Claim C4, amended: a projectile hit that takes the boss's health to ≤ 0
enters the victory-pending state — `isVictory`, `slowMoScale = 0.2`,
`slowMoTimer = 3.0` — and grants the +1000 score bonus and the boss's XP
at that moment; the boss is destroyed and the guarded boss pass can never
grant them again; the 0.2 scalar multiplies only the boss's own update
delta among the subsystem deltas; and once 3.0 s of *unscaled* frame time
accumulate the victory screen is shown. -/
theorem C4_victory_sequence (s : VictoryState) (dmg : ℚ)
    (halive : s.bossDestroyed = false) (hkill : s.bossHealth - dmg ≤ 0) :
    (checkBossProjectile s dmg).isVictory = true ∧
    (checkBossProjectile s dmg).slowMoScale = 0.2 ∧
    (checkBossProjectile s dmg).slowMoTimer = 3 ∧
    (checkBossProjectile s dmg).score = s.score + 1000 ∧
    (checkBossProjectile s dmg).player = gainXp s.player s.bossXpValue ∧
    (checkBossProjectile s dmg).bossDestroyed = true ∧
    (∀ dmg2 : ℚ, checkBossProjectile (checkBossProjectile s dmg) dmg2
       = checkBossProjectile s dmg) ∧
    (∀ dt sc : ℚ, updateDeltas dt sc true = [dt, dt, dt, dt, dt, dt, dt * sc]) ∧
    (∀ ds : List ℚ, 3 ≤ ds.sum →
       (runSlowMo (checkBossProjectile s dmg) ds).2 = true) := by
  have hstep : checkBossProjectile s dmg
      = triggerVictory { s with bossHealth := s.bossHealth - dmg } := by
    simp [checkBossProjectile, projectileHitsBoss, halive, hkill]
  refine ⟨?_, ?_, ?_, ?_, ?_, ?_, ?_, ?_, ?_⟩
  · rw [hstep]; rfl
  · rw [hstep]; rfl
  · rw [hstep]; rfl
  · rw [hstep]; rfl
  · rw [hstep]; rfl
  · rw [hstep]; rfl
  · intro dmg2
    rw [hstep]
    simp [checkBossProjectile, triggerVictory]
  · intro dt sc
    simp [updateDeltas]
  · intro ds hsum
    rw [hstep]
    exact runSlowMo_fires ds _ (by norm_num [triggerVictory]) hsum

/-- Witness for C4: the concrete killing hit on `preKillState`, followed by
two 2-second frames of unscaled time, shows the victory screen. -/
theorem C4_victory_sequence_witness :
    (checkBossProjectile preKillState 1).isVictory = true ∧
    (checkBossProjectile preKillState 1).slowMoTimer = 3 ∧
    (runSlowMo (checkBossProjectile preKillState 1) [2, 2]).2 = true := by
  have h := C4_victory_sequence preKillState 1 rfl (by norm_num [preKillState])
  exact ⟨h.1, h.2.2.1, h.2.2.2.2.2.2.2.2 [2, 2] (by norm_num)⟩

/-- Claim C9: the core normalizes the per-frame movement input: any input
vector with nonzero magnitude — whether shorter or longer than a unit
vector — yields a frame displacement of magnitude exactly `speed × dt`
(never more), and zero input yields zero displacement. -/
theorem C9_movement_normalized (mx mz speed dt : ℝ)
    (hs : 0 ≤ speed) (hdt : 0 ≤ dt) :
    (¬ (mx = 0 ∧ mz = 0) →
      vecLength (handleMovement mx mz speed dt).1 (handleMovement mx mz speed dt).2
        = speed * dt) ∧
    ((mx = 0 ∧ mz = 0) → handleMovement mx mz speed dt = (0, 0)) := by
  constructor
  · intro hne
    have h1 : 0 < mx ^ 2 + mz ^ 2 := by
      rcases not_and_or.mp hne with h | h <;> positivity
    have hL : 0 < Real.sqrt (mx ^ 2 + mz ^ 2) := Real.sqrt_pos.mpr h1
    have hL2 : Real.sqrt (mx ^ 2 + mz ^ 2) ^ 2 = mx ^ 2 + mz ^ 2 :=
      Real.sq_sqrt h1.le
    simp only [handleMovement, vecLength, if_pos hL]
    have hkey : (mx / Real.sqrt (mx ^ 2 + mz ^ 2) * speed * dt) ^ 2 +
        (mz / Real.sqrt (mx ^ 2 + mz ^ 2) * speed * dt) ^ 2 = (speed * dt) ^ 2 := by
      calc (mx / Real.sqrt (mx ^ 2 + mz ^ 2) * speed * dt) ^ 2 +
            (mz / Real.sqrt (mx ^ 2 + mz ^ 2) * speed * dt) ^ 2
          = (speed * dt) ^ 2 / Real.sqrt (mx ^ 2 + mz ^ 2) ^ 2 *
            (mx ^ 2 + mz ^ 2) := by ring
        _ = (speed * dt) ^ 2 / Real.sqrt (mx ^ 2 + mz ^ 2) ^ 2 *
            Real.sqrt (mx ^ 2 + mz ^ 2) ^ 2 := by rw [hL2]
        _ = (speed * dt) ^ 2 := div_mul_cancel₀ _ (pow_ne_zero 2 (ne_of_gt hL))
    rw [hkey, Real.sqrt_sq (mul_nonneg hs hdt)]
  · rintro ⟨rfl, rfl⟩
    simp [handleMovement, vecLength]

/-- Witness for C9: keyboard-diagonal-like input (3,4) at speed 8 for 2 s
moves the player exactly 16 units. -/
theorem C9_movement_normalized_witness :
    vecLength (handleMovement 3 4 8 2).1 (handleMovement 3 4 8 2).2 = 8 * 2 :=
  (C9_movement_normalized 3 4 8 2 (by norm_num) (by norm_num)).1 (by norm_num)

/-- Claim C10: the player↔enemy and player↔boss contact passes share the one
`contactDmgTimer` (the frame composition literally threads the same field
through both passes, in code order boss pass first); within the boss's
3.0 contact radius, a frame with no damage application increases the
timer by 2·dt (once per pass); a boss-pass application resets the shared
timer to 0 before the enemy pass reads it, and an enemy-pass application
leaves the frame's final timer at 0 — the two sources do not run on
independent 0.5-second schedules. -/
theorem C10_shared_contact_timer (timer dt px py pz bX bY bZ bd : ℚ)
    (enemies : List Enemy)
    (hnear : distLt px py pz bX bY bZ 3 = true) :
    (((contactFrame timer dt px py pz bX bY bZ bd enemies).2.1 = none ∧
      (contactFrame timer dt px py pz bX bY bZ bd enemies).2.2 = none) →
      (contactFrame timer dt px py pz bX bY bZ bd enemies).1 = timer + dt + dt) ∧
    ((checkPlayerBossContact timer dt px py pz bX bY bZ bd).2.isSome = true →
      (checkPlayerBossContact timer dt px py pz bX bY bZ bd).1 = 0) ∧
    ((contactFrame timer dt px py pz bX bY bZ bd enemies).2.2.isSome = true →
      (contactFrame timer dt px py pz bX bY bZ bd enemies).1 = 0) ∧
    contactFrame timer dt px py pz bX bY bZ bd enemies =
      ((checkPlayerEnemyContact
          (checkPlayerBossContact timer dt px py pz bX bY bZ bd).1
          dt px py pz enemies).1,
       (checkPlayerBossContact timer dt px py pz bX bY bZ bd).2,
       (checkPlayerEnemyContact
          (checkPlayerBossContact timer dt px py pz bX bY bZ bd).1
          dt px py pz enemies).2) := by
  have hbossPos : contactDmgInterval ≤ timer + dt →
      checkPlayerBossContact timer dt px py pz bX bY bZ bd = (0, some bd) := by
    intro h
    simp [checkPlayerBossContact, hnear, h]
  have hbossNeg : ¬ contactDmgInterval ≤ timer + dt →
      checkPlayerBossContact timer dt px py pz bX bY bZ bd = (timer + dt, none) := by
    intro h
    simp [checkPlayerBossContact, hnear, h]
  have henemy : ∀ t0 : ℚ,
      ((checkPlayerEnemyContact t0 dt px py pz enemies).2 = none →
        (checkPlayerEnemyContact t0 dt px py pz enemies).1 = t0 + dt) ∧
      ((checkPlayerEnemyContact t0 dt px py pz enemies).2.isSome = true →
        (checkPlayerEnemyContact t0 dt px py pz enemies).1 = 0) := by
    intro t0
    simp only [checkPlayerEnemyContact]
    split
    · exact ⟨fun h => by simp at h, fun _ => rfl⟩
    · exact ⟨fun _ => rfl, fun h => by simp at h⟩
  refine ⟨?_, ?_, ?_, rfl⟩
  · rintro ⟨hb, he⟩
    simp only [contactFrame] at hb he ⊢
    by_cases h1 : contactDmgInterval ≤ timer + dt
    · rw [hbossPos h1] at hb
      simp at hb
    · rw [hbossNeg h1] at he ⊢
      exact (henemy (timer + dt)).1 he
  · intro h
    by_cases h1 : contactDmgInterval ≤ timer + dt
    · rw [hbossPos h1]
    · rw [hbossNeg h1] at h
      simp at h
  · intro h
    simp only [contactFrame] at h ⊢
    exact (henemy _).2 h

/-- Witness for C10: player at the origin, boss 1 unit away (inside its 3.0
radius), no enemies touching, timer 0.1, dt 0.1 — neither pass fires and
the shared timer ends the frame at 0.3 = 0.1 + 2·0.1. -/
theorem C10_shared_contact_timer_witness :
    (contactFrame 0.1 0.1 0 1 0 1 1 0 50 []).1 = 0.1 + 0.1 + 0.1 := by
  have h := C10_shared_contact_timer 0.1 0.1 0 1 0 1 1 0 50 []
    (by norm_num [distLt, distSq])
  exact h.1 ⟨by norm_num [contactFrame, checkPlayerBossContact, distLt, distSq,
      contactDmgInterval],
    by norm_num [contactFrame, checkPlayerBossContact, checkPlayerEnemyContact,
      distLt, distSq, contactDmgInterval]⟩
